import Mathlib

/-!
Shallow embedding of the asset/image URL resolution layer of the
mercancy e-commerce storefront: the URL builders of `lib/utils/image.ts`
(CDN / R2 public bucket / Laravel proxy / public-id addressing) and the
signed-URL cache service of `lib/services/signed-url.service.ts`.

Module-level ambient state of the source (environment variables,
`cachedStorageConfig`, `localStorage`, `Math.random`, the HTTP client)
is passed explicitly as parameters.  JS `Map` is modelled as an
insertion-ordered association list with unique keys; timestamps are
integer milliseconds.
-/

set_option maxRecDepth 4096

namespace Mercancy

/-- String prefix test on the underlying character list (JS `startsWith`). -/
def strStartsWith (s p : String) : Bool :=
  p.data.isPrefixOf s.data

/-- String suffix test on the underlying character list (JS `endsWith`). -/
def strEndsWith (s p : String) : Bool :=
  p.data.isSuffixOf s.data

/-- Drop the first `n` characters (JS `slice(n)`). -/
def strDrop (s : String) (n : Nat) : String :=
  ⟨s.data.drop n⟩

/-- Drop the last `n` characters (JS `slice(0, -n)`). -/
def strDropRight (s : String) (n : Nat) : String :=
  ⟨s.data.take (s.data.length - n)⟩

/-- JS truthiness of an optional string: `null`/`undefined` and `""` are falsy. -/
def strTruthy : Option String → Bool
  | none => false
  | some s => s != ""

/-- JS `x || d` for an optional string `x` and a string default `d`. -/
def jsOrStr (x : Option String) (d : String) : String :=
  match x with
  | some s => if s = "" then d else s
  | none => d

/-- JS `a || b` where both sides are string-or-null. -/
def jsOrStrOpt (a b : Option String) : Option String :=
  match a with
  | some s => if s = "" then b else some s
  | none => b

/-- Strip a single leading slash: `filename.startsWith('/') ? filename.slice(1) : filename`. -/
def cleanName (filename : String) : String :=
  if strStartsWith filename "/" then strDrop filename 1 else filename

/-- Source `isFullUrl`: the string starts with `http://` or `https://`. -/
def isFullUrl (url : String) : Bool :=
  strStartsWith url "http://" || strStartsWith url "https://"

/-- The closed set of entity image types (source union type `ImageType`). -/
inductive ImageType where
  | product | customer | banner | category | review | notification
  | ecommerce | delivery_man | chat | category_banner | flash_sale
  | gateway | order
deriving DecidableEq, Repr

/-- String value of an `ImageType` as it appears in constructed URL paths. -/
def ImageType.str : ImageType → String
  | .product => "product"
  | .customer => "customer"
  | .banner => "banner"
  | .category => "category"
  | .review => "review"
  | .notification => "notification"
  | .ecommerce => "ecommerce"
  | .delivery_man => "delivery_man"
  | .chat => "chat"
  | .category_banner => "category_banner"
  | .flash_sale => "flash_sale"
  | .gateway => "gateway"
  | .order => "order"

/-- Source constant `PLACEHOLDER_IMAGE`. -/
def PLACEHOLDER_IMAGE : String := "/placeholder.svg"

/-- Source `ENTITY_PREFIXES` table: one-letter path code per entity type,
`null` for entity types without public-id addressing. -/
def ENTITY_PREFIXES : ImageType → Option String
  | .product => some "p"
  | .category => some "c"
  | _ => none

/-- Runtime storage configuration delivered by the API (`config.storage`).
Optional string fields are `Option String`; absent is `none`.  The source
field named for the path segment inserted before `tenants/` is called
`path_pfx` here. -/
structure StorageConfig where
  driver : String
  public_url : Option String := none
  path_pfx : Option String := none
  storage_folder : Option String := none
  use_signed_urls : Bool := false
deriving DecidableEq, Repr

/-- Process environment read at module load: `NEXT_PUBLIC_API_URL` (with its
default) and `NEXT_PUBLIC_CDN_URL` (empty means disabled). -/
structure Env where
  API_BASE_URL : String := "http://localhost:80"
  CDN_URL : String := ""
deriving DecidableEq, Repr

/-- Source `buildCdnUrl`: CDN base (trailing slash trimmed) +
`/{path_pfx}/tenants/{storage_folder || tenant}/{type}/{filename}`. -/
def buildCdnUrl (env : Env) (storage : Option StorageConfig) (tenant : String)
    (ty : ImageType) (filename : String) : String :=
  let cleanFilename := cleanName filename
  let pathPfx := jsOrStr (storage.bind (·.path_pfx)) "img"
  let baseUrl := if strEndsWith env.CDN_URL "/" then strDropRight env.CDN_URL 1 else env.CDN_URL
  let storageFolder := jsOrStr (storage.bind (·.storage_folder)) tenant
  baseUrl ++ "/" ++ pathPfx ++ "/tenants/" ++ storageFolder ++ "/" ++ ty.str ++ "/" ++ cleanFilename

/-- Source `buildProxyUrl`: Laravel proxy URL
`{API_BASE_URL}/{tenant}/storage/gcs/img/tenants/{storage_folder || tenant}/{type}/{filename}`. -/
def buildProxyUrl (env : Env) (storage : Option StorageConfig) (tenant : String)
    (ty : ImageType) (filename : String) : String :=
  let cleanFilename := cleanName filename
  let storageFolder := jsOrStr (storage.bind (·.storage_folder)) tenant
  env.API_BASE_URL ++ "/" ++ tenant ++ "/storage/gcs/img/tenants/" ++ storageFolder ++ "/"
    ++ ty.str ++ "/" ++ cleanFilename

/-- Source `buildR2Url`: CDN takes priority; a missing/empty `public_url` falls
back to the proxy URL (with a console warning, not modelled); otherwise
`{public_url}/{path_pfx}/tenants/{storage_folder || tenant}/{type}/{filename}`. -/
def buildR2Url (env : Env) (storage : StorageConfig) (tenant : String)
    (ty : ImageType) (filename : String) : String :=
  if env.CDN_URL ≠ "" then
    buildCdnUrl env (some storage) tenant ty filename
  else if strTruthy storage.public_url = false then
    buildProxyUrl env (some storage) tenant ty filename
  else
    let cleanFilename := cleanName filename
    let pathPfx := jsOrStr storage.path_pfx "img"
    let storageFolder := jsOrStr storage.storage_folder tenant
    (storage.public_url.getD "") ++ "/" ++ pathPfx ++ "/tenants/" ++ storageFolder ++ "/"
      ++ ty.str ++ "/" ++ cleanFilename

/-- Source `ImageUrlOptions` object: optional storage config and tenant. -/
structure ImageUrlOptions where
  storageConfig : Option StorageConfig := none
  tenant : Option String := none
deriving DecidableEq, Repr

/-- The `options` argument of `getImageUrl`: absent, a legacy bare
`StorageConfig` (runtime-detected via `'driver' in options`), or the new
`ImageUrlOptions` shape. -/
inductive ImageUrlOptionsArg where
  | noOptions
  | legacyConfig (cfg : StorageConfig)
  | newOptions (o : ImageUrlOptions)
deriving DecidableEq, Repr

/-- Source `getImageUrl` (the synchronous `buildUrl` entry point).
`cachedStorageConfig` is the module-global config snapshot and
`currentTenant` the value `getCurrentTenant()` would read from
`localStorage` (`none` when server-side, unreadable or absent). -/
def getImageUrl (env : Env) (cachedStorageConfig : Option StorageConfig)
    (currentTenant : Option String) (ty : ImageType)
    (filename : Option String) (options : ImageUrlOptionsArg) : String :=
  match filename with
  | none => PLACEHOLDER_IMAGE
  | some f =>
    if f = "" then PLACEHOLDER_IMAGE
    else if isFullUrl f then f
    else
      let storageConfig : Option StorageConfig :=
        match options with
        | .noOptions => none
        | .legacyConfig cfg => some cfg
        | .newOptions o => o.storageConfig
      let tenantParam : Option String :=
        match options with
        | .noOptions => none
        | .legacyConfig _ => none
        | .newOptions o => o.tenant
      match jsOrStrOpt tenantParam currentTenant with
      | none => PLACEHOLDER_IMAGE
      | some t =>
        if t = "" then PLACEHOLDER_IMAGE
        else
          let storage := storageConfig.orElse (fun _ => cachedStorageConfig)
          let cleanFilename := cleanName f
          if env.CDN_URL ≠ "" then
            buildCdnUrl env storage t ty cleanFilename
          else
            match storage with
            | some s =>
              if s.driver = "r2" then buildR2Url env s t ty cleanFilename
              else buildProxyUrl env storage t ty cleanFilename
            | none => buildProxyUrl env none t ty cleanFilename

/-- The `indexOrFilename` argument of `getPublicIdImageUrl`: a numeric image
index or a literal filename. -/
inductive IndexOrFilename where
  | index (n : Nat)
  | name (s : String)
deriving DecidableEq, Repr

/-- Index-to-filename conversion done by `getPublicIdImageUrl`
(`` `${indexOrFilename}.jpg` `` for numbers). -/
def IndexOrFilename.toFilename : IndexOrFilename → String
  | .index n => toString n ++ ".jpg"
  | .name s => s

/-- Source `getPublicIdImageUrl`: public-id addressed URL
`{base}/{path_pfx}/{entity-letter}/{publicId}/{filename}` with CDN
priority, then R2 public url, then the `/storage/` proxy form. -/
def getPublicIdImageUrl (env : Env) (cachedStorageConfig : Option StorageConfig)
    (entityType : ImageType) (publicId : Option String)
    (indexOrFilename : IndexOrFilename)
    (optionsStorage : Option StorageConfig) : String :=
  match ENTITY_PREFIXES entityType, publicId with
  | some pfx, some pid =>
    if pid = "" then PLACEHOLDER_IMAGE
    else
      let storage := optionsStorage.orElse (fun _ => cachedStorageConfig)
      let pathPfx := jsOrStr (storage.bind (·.path_pfx)) "img"
      let filename := indexOrFilename.toFilename
      let imagePath := pfx ++ "/" ++ pid ++ "/" ++ filename
      if env.CDN_URL ≠ "" then
        let baseUrl := if strEndsWith env.CDN_URL "/" then strDropRight env.CDN_URL 1 else env.CDN_URL
        baseUrl ++ "/" ++ pathPfx ++ "/" ++ imagePath
      else
        match storage with
        | some s =>
          if s.driver = "r2" ∧ strTruthy s.public_url then
            s.public_url.getD "" ++ "/" ++ pathPfx ++ "/" ++ imagePath
          else
            env.API_BASE_URL ++ "/storage/" ++ pathPfx ++ "/" ++ imagePath
        | none => env.API_BASE_URL ++ "/storage/" ++ pathPfx ++ "/" ++ imagePath
  | _, _ => PLACEHOLDER_IMAGE

/-- The `image` field of `EntityImageData`: `string | string[] | null`. -/
inductive ImageField where
  | noImage
  | str (s : String)
  | arr (l : List String)
deriving DecidableEq, Repr

/-- Source `EntityImageData`: entity with an image field and optional
camelCase / snake_case public id. -/
structure EntityImageData where
  image : ImageField := .noImage
  publicId : Option String := none
  public_id : Option String := none
deriving DecidableEq, Repr

/-- First image extraction of `getEntityCardImageUrl`
(`Array.isArray(imageValue) ? imageValue[0] : imageValue`). -/
def firstImageOf : ImageField → Option String
  | .noImage => none
  | .str s => some s
  | .arr l => l.head?

/-- Public id coalescing of `getEntityCardImageUrl`
(`entity.publicId ?? entity.public_id`). -/
def entityPublicId (e : EntityImageData) : Option String :=
  e.publicId.orElse (fun _ => e.public_id)

/-- Source regex test `/^\d+\.\w+$/` deciding the new numeric-index image
filename format: one or more digits, a dot, one or more word characters. -/
def isNewFormat (s : String) : Bool :=
  let cs := s.data
  let ds := cs.takeWhile Char.isDigit
  match cs.dropWhile Char.isDigit with
  | '.' :: ws => !ds.isEmpty && !ws.isEmpty && ws.all (fun c => c.isAlphanum || c = '_')
  | _ => false

/-- Source `getEntityCardImageUrl`: routes the first image either to the
public-id addressed builder (new numeric-index filename, truthy public id,
public-id capable entity type) or to the legacy tenant-scoped `getImageUrl`. -/
def getEntityCardImageUrl (env : Env) (cachedStorageConfig : Option StorageConfig)
    (currentTenant : Option String) (entityType : ImageType)
    (entity : EntityImageData)
    (optionsStorage : Option StorageConfig) (optionsTenant : Option String) : String :=
  match firstImageOf entity.image with
  | none => PLACEHOLDER_IMAGE
  | some firstImage =>
    if firstImage = "" then PLACEHOLDER_IMAGE
    else
      let publicId := entityPublicId entity
      if isNewFormat firstImage ∧ strTruthy publicId ∧ (ENTITY_PREFIXES entityType).isSome then
        getPublicIdImageUrl env cachedStorageConfig entityType publicId
          (.name firstImage) optionsStorage
      else
        getImageUrl env cachedStorageConfig currentTenant entityType (some firstImage)
          (.newOptions { storageConfig := optionsStorage, tenant := optionsTenant })

/-! Signed URL cache service (`signed-url.service.ts`). -/

/-- Service constant `CACHE_BUFFER_SECONDS`: renew 60 s before expiry. -/
def CACHE_BUFFER_SECONDS : Int := 60

/-- Service constant `MAX_CACHE_SIZE`: at most 500 cached URLs. -/
def MAX_CACHE_SIZE : Nat := 500

/-- Service constant `DEFAULT_EXPIRATION_MINUTES`. -/
def DEFAULT_EXPIRATION_MINUTES : Int := 10

/-- One cache entry: signed URL plus absolute expiry (ms since epoch). -/
structure CachedUrl where
  url : String
  expiresAt : Int
deriving DecidableEq, Repr

/-- The in-memory `urlCache` `Map`: insertion-ordered key/value list. -/
abbrev UrlCache := List (String × CachedUrl)

/-- JS `Map.get`. -/
def mapGet (m : UrlCache) (k : String) : Option CachedUrl :=
  (m.find? (fun p => p.1 = k)).map (·.2)

/-- JS `Map.set`: updates in place when the key exists, else appends. -/
def mapSet (m : UrlCache) (k : String) (v : CachedUrl) : UrlCache :=
  if m.any (fun p => p.1 = k) then
    m.map (fun p => if p.1 = k then (k, v) else p)
  else m ++ [(k, v)]

/-- Service `getCacheKey`: `` `${tenant}:${type}:${filename}` ``. -/
def getCacheKey (tenant : String) (ty : ImageType) (filename : String) : String :=
  tenant ++ ":" ++ ty.str ++ ":" ++ filename

/-- Service `buildAssetKey`: `` `tenants/${tenant}/${type}/${cleanFilename}` ``. -/
def serviceAssetKey (tenant : String) (ty : ImageType) (filename : String) : String :=
  "tenants/" ++ tenant ++ "/" ++ ty.str ++ "/" ++ cleanName filename

/-- Service `isCacheValid`: `now < expiresAt - CACHE_BUFFER_SECONDS * 1000`. -/
def isCacheValid (now : Int) (cached : CachedUrl) : Bool :=
  now < cached.expiresAt - CACHE_BUFFER_SECONDS * 1000

/-- Expiry comparison used by the sweep's sort
(`(a, b) => a.expiresAt - b.expiresAt`, ascending). -/
def expLe (a b : String × CachedUrl) : Prop :=
  a.2.expiresAt ≤ b.2.expiresAt

instance : DecidableRel expLe := fun a b => Int.decLe a.2.expiresAt b.2.expiresAt

instance : IsTotal (String × CachedUrl) expLe :=
  ⟨fun a b => Int.le_total a.2.expiresAt b.2.expiresAt⟩

instance : IsTrans (String × CachedUrl) expLe :=
  ⟨fun _ _ _ hab hbc => Int.le_trans hab hbc⟩

/-- Service `cleanExpiredCache` (`sweep`): delete entries with
`now >= expiresAt`; then, when still over `MAX_CACHE_SIZE`, sort ascending
by expiry (JS stable sort, modelled as stable insertion sort) and delete the
earliest-expiring surplus keys. -/
def cleanExpiredCache (now : Int) (m : UrlCache) : UrlCache :=
  let m1 := m.filter (fun p => decide (¬ now ≥ p.2.expiresAt))
  if m1.length > MAX_CACHE_SIZE then
    let sorted := m1.insertionSort expLe
    let toRemove := sorted.take (sorted.length - MAX_CACHE_SIZE)
    m1.filter (fun p => !(toRemove.any (fun q => q.1 = p.1)))
  else m1

/-- Outcome of the HTTP GET issued by `fetchSignedUrl`: a thrown network
error, or a `SignedUrlResponse` body with its `success` flag and optional
`data.url`. -/
inductive FetchResult where
  | fetchError
  | response (success : Bool) (url : Option String)
deriving DecidableEq, Repr

/-- Service `fetchSignedUrl`: returns the URL only on a successful response
carrying a truthy `data.url`; every failure (including a thrown error) is
caught and becomes `null`. -/
def fetchSignedUrl : FetchResult → Option String
  | .fetchError => none
  | .response success url => if success ∧ strTruthy url then url else none

/-- Service `usesPublicUrls` over the module-global config snapshot. -/
def usesPublicUrls (cachedStorageConfig : Option StorageConfig) : Bool :=
  match cachedStorageConfig with
  | some c => c.driver = "r2"
  | none => false

/-- Service `getSignedImageUrl`, returning the produced URL (or `null`), the
cache after the call, and whether a network signing request was issued.
`sweepDraw` is the `Math.random() < 0.1` draw and `fetch` the oracle for the
single possible signing request. -/
def getSignedImageUrl (globalConfig : Option StorageConfig) (sweepDraw : Bool)
    (now : Int) (cache : UrlCache) (fetch : FetchResult)
    (tenant : String) (ty : ImageType) (filename : String) :
    Option String × UrlCache × Bool :=
  if usesPublicUrls globalConfig then (none, cache, false)
  else
    let cache1 := if sweepDraw then cleanExpiredCache now cache else cache
    let cacheKey := getCacheKey tenant ty filename
    let hit : Option String :=
      match mapGet cache1 cacheKey with
      | some cached => if isCacheValid now cached then some cached.url else none
      | none => none
    match hit with
    | some u => (some u, cache1, false)
    | none =>
      match fetchSignedUrl fetch with
      | some u =>
        let expiresAt := now + DEFAULT_EXPIRATION_MINUTES * 60 * 1000
        (some u, mapSet cache1 cacheKey { url := u, expiresAt := expiresAt }, true)
      | none => (none, cache1, true)

/-- Source `getImageUrlWithSignedFallback` (the async `resolveWithFallback`):
returns the resolved URL, the signed-URL cache after the call, and whether a
network signing request was issued.  `windowDefined` models
`typeof window !== 'undefined'` and `token` the `localStorage` session token. -/
def getImageUrlWithSignedFallback (env : Env)
    (cachedStorageConfig : Option StorageConfig) (currentTenant : Option String)
    (windowDefined : Bool) (token : Option String)
    (sweepDraw : Bool) (now : Int) (cache : UrlCache) (fetch : FetchResult)
    (ty : ImageType) (filename : Option String)
    (preferSignedUrl : Option Bool) (optionsTenant : Option String)
    (optionsStorage : Option StorageConfig) : String × UrlCache × Bool :=
  match filename with
  | none => (PLACEHOLDER_IMAGE, cache, false)
  | some f =>
    if f = "" then (PLACEHOLDER_IMAGE, cache, false)
    else if isFullUrl f then (f, cache, false)
    else
      match jsOrStrOpt optionsTenant currentTenant with
      | none => (PLACEHOLDER_IMAGE, cache, false)
      | some t =>
        if t = "" then (PLACEHOLDER_IMAGE, cache, false)
        else
          let storage := optionsStorage.orElse (fun _ => cachedStorageConfig)
          let cleanFilename := cleanName f
          if env.CDN_URL ≠ "" then
            (buildCdnUrl env storage t ty cleanFilename, cache, false)
          else
            match storage with
            | some s =>
              if s.driver = "r2" then
                (buildR2Url env s t ty cleanFilename, cache, false)
              else
                if s.driver = "gcs" ∧ s.use_signed_urls ∧ preferSignedUrl.getD true
                    ∧ windowDefined then
                  if strTruthy token then
                    match getSignedImageUrl cachedStorageConfig sweepDraw now cache fetch
                        t ty f with
                    | (some u, cache2, fetched) => (u, cache2, fetched)
                    | (none, cache2, fetched) =>
                      (buildProxyUrl env storage t ty cleanFilename, cache2, fetched)
                  else (buildProxyUrl env storage t ty cleanFilename, cache, false)
                else (buildProxyUrl env storage t ty cleanFilename, cache, false)
            | none => (buildProxyUrl env none t ty cleanFilename, cache, false)

/-! Helper lemmas. -/

/-- A filename without a leading slash is unchanged by `cleanName`. -/
theorem cleanName_of_no_slash {f : String} (h : strStartsWith f "/" = false) :
    cleanName f = f := by
  simp [cleanName, h]

/-- A string of positive length is not the empty string. -/
theorem ne_empty_of_length_pos {s : String} (h : 0 < s.length) : s ≠ "" := by
  intro he
  subst he
  simp at h

/-! Claim theorems. -/

/-- C9: for every driver, entity type and tenant situation, a `null`/`undefined`
or empty filename makes both `getImageUrl` and `getImageUrlWithSignedFallback`
return the fixed placeholder `/placeholder.svg`; the async variant additionally
leaves the signed-URL cache untouched and issues no network request. -/
theorem C9_missing_filename_placeholder (env : Env) (cached : Option StorageConfig)
    (curT : Option String) (ty : ImageType) (options : ImageUrlOptionsArg)
    (windowDefined : Bool) (token : Option String) (sweepDraw : Bool) (now : Int)
    (cache : UrlCache) (fetch : FetchResult) (pref : Option Bool)
    (oT : Option String) (oS : Option StorageConfig) :
    getImageUrl env cached curT ty none options = PLACEHOLDER_IMAGE
    ∧ getImageUrl env cached curT ty (some "") options = PLACEHOLDER_IMAGE
    ∧ getImageUrlWithSignedFallback env cached curT windowDefined token sweepDraw now cache
        fetch ty none pref oT oS = (PLACEHOLDER_IMAGE, cache, false)
    ∧ getImageUrlWithSignedFallback env cached curT windowDefined token sweepDraw now cache
        fetch ty (some "") pref oT oS = (PLACEHOLDER_IMAGE, cache, false) := by
  refine ⟨rfl, ?_, rfl, ?_⟩ <;> simp [getImageUrl, getImageUrlWithSignedFallback]

/-- C10: for a non-empty, non-absolute filename, when the options carry no
tenant and no current tenant is readable from storage, both entry points
return the placeholder instead of constructing a URL. -/
theorem C10_missing_tenant_placeholder (env : Env) (cached : Option StorageConfig)
    (ty : ImageType) (f : String) (o : ImageUrlOptions)
    (windowDefined : Bool) (token : Option String) (sweepDraw : Bool) (now : Int)
    (cache : UrlCache) (fetch : FetchResult) (pref : Option Bool)
    (oS : Option StorageConfig)
    (hf : f ≠ "") (hfull : isFullUrl f = false) (hoT : o.tenant = none) :
    getImageUrl env cached none ty (some f) .noOptions = PLACEHOLDER_IMAGE
    ∧ (∀ cfg, getImageUrl env cached none ty (some f) (.legacyConfig cfg) = PLACEHOLDER_IMAGE)
    ∧ getImageUrl env cached none ty (some f) (.newOptions o) = PLACEHOLDER_IMAGE
    ∧ getImageUrlWithSignedFallback env cached none windowDefined token sweepDraw now cache
        fetch ty (some f) pref none oS = (PLACEHOLDER_IMAGE, cache, false) := by
  refine ⟨?_, fun cfg => ?_, ?_, ?_⟩ <;>
    simp [getImageUrl, getImageUrlWithSignedFallback, jsOrStrOpt, hf, hfull, hoT]

/-- C10 witness: concrete instance with filename `a.png`. -/
theorem C10_missing_tenant_placeholder_witness :
    getImageUrl { } none none .product (some "a.png") .noOptions = PLACEHOLDER_IMAGE := by
  exact (C10_missing_tenant_placeholder { } none .product "a.png" { } true none false 0 []
    .fetchError none none (by decide) (by decide) rfl).1

/-- C8: with driver `r2`, a configured public base URL, no CDN and no
storage-folder override, `getImageUrl` returns
`{publicBaseUrl}/{pathPrefix}/tenants/{tenant}/{entityType}/{filename}`. -/
theorem C8_r2_public_bucket_url (env : Env) (cached : Option StorageConfig)
    (curT : Option String) (ty : ImageType) (cfg : StorageConfig)
    (t f pub : String) (ht : t ≠ "") (hf : f ≠ "") (hfull : isFullUrl f = false)
    (hslash : strStartsWith f "/" = false) (hcdn : env.CDN_URL = "")
    (hdrv : cfg.driver = "r2") (hpub : cfg.public_url = some pub) (hpubne : pub ≠ "")
    (hsf : cfg.storage_folder = none) :
    getImageUrl env cached curT ty (some f)
      (.newOptions { storageConfig := some cfg, tenant := some t })
    = pub ++ "/" ++ jsOrStr cfg.path_pfx "img" ++ "/tenants/" ++ t ++ "/"
      ++ ty.str ++ "/" ++ f := by
  simp [getImageUrl, buildR2Url, buildCdnUrl, buildProxyUrl, cleanName_of_no_slash hslash,
    jsOrStrOpt, jsOrStr, strTruthy, hf, hfull, ht, hcdn, hdrv, hpub, hpubne, hsf]

/-- C8 witness: the spec's concrete example scenario evaluates to exactly
`https://pub.example.dev/img/tenants/acme/category/logo.png`. -/
theorem C8_r2_public_bucket_url_witness :
    getImageUrl { CDN_URL := "" } none none .category (some "logo.png")
      (.newOptions
        { storageConfig := some
            ({ driver := "r2", public_url := some "https://pub.example.dev",
               path_pfx := some "img" } : StorageConfig),
          tenant := some "acme" })
    = "https://pub.example.dev/img/tenants/acme/category/logo.png" := by
  have h := C8_r2_public_bucket_url { CDN_URL := "" } none none .category
    { driver := "r2", public_url := some "https://pub.example.dev",
      path_pfx := some "img" }
    "acme" "logo.png" "https://pub.example.dev"
    (by decide) (by decide) (by decide) (by decide) rfl rfl rfl (by decide) rfl
  exact h.trans (by rfl)

/-- C7: with the public-bucket driver `r2` but no usable public base URL and
no CDN, `getImageUrl` falls back to the tenant-scoped proxy URL form (the
console warning and the absence of a thrown error are modelled by the
function being total and returning this string). -/
theorem C7_r2_missing_public_url_proxy (env : Env) (cached : Option StorageConfig)
    (curT : Option String) (ty : ImageType) (cfg : StorageConfig)
    (t f : String) (ht : t ≠ "") (hf : f ≠ "") (hfull : isFullUrl f = false)
    (hslash : strStartsWith f "/" = false) (hcdn : env.CDN_URL = "")
    (hdrv : cfg.driver = "r2") (hpub : strTruthy cfg.public_url = false) :
    getImageUrl env cached curT ty (some f)
      (.newOptions { storageConfig := some cfg, tenant := some t })
    = env.API_BASE_URL ++ "/" ++ t ++ "/storage/gcs/img/tenants/"
      ++ jsOrStr cfg.storage_folder t ++ "/" ++ ty.str ++ "/" ++ f := by
  simp [getImageUrl, buildR2Url, buildCdnUrl, buildProxyUrl, cleanName_of_no_slash hslash,
    jsOrStrOpt, hf, hfull, ht, hcdn, hdrv, hpub]

/-- C6: in the CDN, public-bucket and proxy URLs built by `getImageUrl`, the
path segment after `tenants/` is the configuration's `storage_folder` when
present and non-empty, else the tenant id, while the leading route segment of
the proxy URL stays the tenant id. -/
theorem C6_storage_folder_substitution (env : Env) (cached : Option StorageConfig)
    (curT : Option String) (ty : ImageType) (cfg : StorageConfig) (t f : String)
    (ht : t ≠ "") (hf : f ≠ "") (hfull : isFullUrl f = false)
    (hslash : strStartsWith f "/" = false) :
    (env.CDN_URL ≠ "" →
      getImageUrl env cached curT ty (some f)
        (.newOptions { storageConfig := some cfg, tenant := some t })
      = (if strEndsWith env.CDN_URL "/" then strDropRight env.CDN_URL 1 else env.CDN_URL)
        ++ "/" ++ jsOrStr cfg.path_pfx "img" ++ "/tenants/"
        ++ (match cfg.storage_folder with | some s => if s = "" then t else s | none => t)
        ++ "/" ++ ty.str ++ "/" ++ f)
    ∧ (env.CDN_URL = "" → cfg.driver = "r2" → strTruthy cfg.public_url = true →
      getImageUrl env cached curT ty (some f)
        (.newOptions { storageConfig := some cfg, tenant := some t })
      = cfg.public_url.getD "" ++ "/" ++ jsOrStr cfg.path_pfx "img" ++ "/tenants/"
        ++ (match cfg.storage_folder with | some s => if s = "" then t else s | none => t)
        ++ "/" ++ ty.str ++ "/" ++ f)
    ∧ (env.CDN_URL = "" → cfg.driver ≠ "r2" →
      getImageUrl env cached curT ty (some f)
        (.newOptions { storageConfig := some cfg, tenant := some t })
      = env.API_BASE_URL ++ "/" ++ t ++ "/storage/gcs/img/tenants/"
        ++ (match cfg.storage_folder with | some s => if s = "" then t else s | none => t)
        ++ "/" ++ ty.str ++ "/" ++ f) := by
  refine ⟨fun hcdn => ?_, fun hcdn hdrv hpub => ?_, fun hcdn hdrv => ?_⟩
  · simp [getImageUrl, buildCdnUrl, cleanName_of_no_slash hslash,
      jsOrStrOpt, jsOrStr, hf, hfull, ht, hcdn]
  · simp [getImageUrl, buildR2Url, buildCdnUrl, cleanName_of_no_slash hslash,
      jsOrStrOpt, jsOrStr, hf, hfull, ht, hcdn, hdrv, hpub]
  · simp [getImageUrl, buildR2Url, buildProxyUrl, cleanName_of_no_slash hslash,
      jsOrStrOpt, jsOrStr, hf, hfull, ht, hcdn, hdrv]

/-- C6 witness: with `storage_folder = "schema1"` and tenant `acme`, the proxy
URL keeps `acme` as leading route segment but uses `schema1` after `tenants/`. -/
theorem C6_storage_folder_substitution_witness :
    getImageUrl { } none none .product (some "a.png")
      (.newOptions
        { storageConfig := some
            ({ driver := "gcs", storage_folder := some "schema1" } : StorageConfig),
          tenant := some "acme" })
    = "http://localhost:80/acme/storage/gcs/img/tenants/schema1/product/a.png" := by
  have h := (C6_storage_folder_substitution { } none none .product
    { driver := "gcs", storage_folder := some "schema1" } "acme" "a.png"
    (by decide) (by decide) (by decide) (by decide)).2.2 rfl (by decide)
  exact h.trans (by rfl)

/-- C7 witness: concrete `r2` configuration with `public_url` absent falls
back to the proxy URL. -/
theorem C7_r2_missing_public_url_proxy_witness :
    getImageUrl { } none none .product (some "a.png")
      (.newOptions { storageConfig := some { driver := "r2" }, tenant := some "loja" })
    = "http://localhost:80/loja/storage/gcs/img/tenants/loja/product/a.png" := by
  have h := C7_r2_missing_public_url_proxy { } none none .product { driver := "r2" }
    "loja" "a.png" (by decide) (by decide) (by decide) (by decide) rfl rfl (by decide)
  exact h.trans (by rfl)

/-- Every branch of `getPublicIdImageUrl` ends with the public-id path
segment `{entity-letter}/{publicId}/{filename}`. -/
theorem getPublicIdImageUrl_suffix (env : Env) (cached : Option StorageConfig)
    (ty : ImageType) (pid : String) (iof : IndexOrFilename)
    (oS : Option StorageConfig) (pfx : String)
    (hpfx : ENTITY_PREFIXES ty = some pfx) (hpid : pid ≠ "") :
    ∃ pre, getPublicIdImageUrl env cached ty (some pid) iof oS
      = pre ++ (pfx ++ "/" ++ pid ++ "/" ++ iof.toFilename) := by
  unfold getPublicIdImageUrl
  rw [hpfx]
  simp only [if_neg hpid]
  repeat' first
    | exact ⟨_, rfl⟩
    | split

/-- When the new-format routing condition of `getEntityCardImageUrl` fails,
the call reduces to the legacy tenant-scoped `getImageUrl`. -/
theorem getEntityCard_legacy (env : Env) (cached : Option StorageConfig)
    (curT : Option String) (ty : ImageType) (e : EntityImageData)
    (oS : Option StorageConfig) (oT : Option String) (f : String)
    (hf : firstImageOf e.image = some f) (hne : f ≠ "")
    (hcond : ¬(isNewFormat f ∧ strTruthy (entityPublicId e)
      ∧ (ENTITY_PREFIXES ty).isSome)) :
    getEntityCardImageUrl env cached curT ty e oS oT
      = getImageUrl env cached curT ty (some f)
          (.newOptions { storageConfig := oS, tenant := oT }) := by
  unfold getEntityCardImageUrl
  rw [hf]
  simp only [if_neg hne, if_neg hcond]

/-- C1: routing of `getEntityCardImageUrl`.  When the first image filename
matches the numeric-index format, the coalesced public id is non-empty and
the entity type has a public-id path letter, the result is the public-id
addressed URL and contains the segment `{letter}/{publicId}/{filename}`;
in every other combination the call reduces to the legacy tenant-scoped
`getImageUrl`, and whenever the filename or entity type disqualifies, the
public-id fields are ignored entirely. -/
theorem C1_entity_card_routing (env : Env) (cached : Option StorageConfig)
    (curT : Option String) (ty : ImageType) (e : EntityImageData)
    (oS : Option StorageConfig) (oT : Option String) (f : String)
    (hf : firstImageOf e.image = some f) (hne : f ≠ "") :
    (∀ pfx pid, ENTITY_PREFIXES ty = some pfx → entityPublicId e = some pid →
      pid ≠ "" → isNewFormat f = true →
      getEntityCardImageUrl env cached curT ty e oS oT
        = getPublicIdImageUrl env cached ty (some pid) (.name f) oS
      ∧ ∃ pre, getEntityCardImageUrl env cached curT ty e oS oT
          = pre ++ (pfx ++ "/" ++ pid ++ "/" ++ f))
    ∧ ((isNewFormat f = false ∨ entityPublicId e = none ∨ entityPublicId e = some ""
        ∨ ENTITY_PREFIXES ty = none) →
      getEntityCardImageUrl env cached curT ty e oS oT
        = getImageUrl env cached curT ty (some f)
            (.newOptions { storageConfig := oS, tenant := oT }))
    ∧ ((isNewFormat f = false ∨ ENTITY_PREFIXES ty = none) →
      ∀ e', e'.image = e.image →
      getEntityCardImageUrl env cached curT ty e' oS oT
        = getEntityCardImageUrl env cached curT ty e oS oT) := by
  refine ⟨?_, ?_, ?_⟩
  · intro pfx pid hpfx hpid hpidne hnew
    have hroute : getEntityCardImageUrl env cached curT ty e oS oT
        = getPublicIdImageUrl env cached ty (some pid) (.name f) oS := by
      unfold getEntityCardImageUrl
      rw [hf]
      have hcond : isNewFormat f ∧ strTruthy (entityPublicId e)
          ∧ (ENTITY_PREFIXES ty).isSome := by
        refine ⟨by rw [hnew], by simp [hpid, strTruthy, hpidne], by rw [hpfx]; rfl⟩
      rw [hpid] at hcond
      simp only [if_neg hne, hpid, if_pos hcond]
    refine ⟨hroute, ?_⟩
    have hsuf := getPublicIdImageUrl_suffix env cached ty pid (.name f) oS pfx hpfx hpidne
    obtain ⟨pre, hpre⟩ := hsuf
    exact ⟨pre, hroute.trans hpre⟩
  · intro hdisj
    refine getEntityCard_legacy env cached curT ty e oS oT f hf hne ?_
    rintro ⟨h1, h2, h3⟩
    rcases hdisj with h | h | h | h
    · rw [h] at h1; exact absurd h1 (by simp)
    · rw [h] at h2; exact absurd h2 (by simp [strTruthy])
    · rw [h] at h2; exact absurd h2 (by simp [strTruthy])
    · rw [h] at h3; exact absurd h3 (by simp)
  · intro hdisj e' he'
    have hcond : ∀ e0 : EntityImageData,
        ¬(isNewFormat f ∧ strTruthy (entityPublicId e0)
          ∧ (ENTITY_PREFIXES ty).isSome) := by
      intro e0
      rintro ⟨h1, h2, h3⟩
      rcases hdisj with h | h
      · rw [h] at h1; exact absurd h1 (by simp)
      · rw [h] at h3; exact absurd h3 (by simp)
    rw [getEntityCard_legacy env cached curT ty e oS oT f hf hne (hcond e),
      getEntityCard_legacy env cached curT ty e' oS oT f (he' ▸ hf) hne (hcond e')]

/-- C1 witness: concrete new-format and legacy routings for a product. -/
theorem C1_entity_card_routing_witness :
    getEntityCardImageUrl { } (some { driver := "gcs" }) none .product
      { image := .str "0.jpg", publicId := some "01ABC" } none (some "acme")
    = "http://localhost:80/storage/img/p/01ABC/0.jpg"
    ∧ getEntityCardImageUrl { } (some { driver := "gcs" }) none .product
      { image := .str "2024-01-01-abc.jpg", publicId := some "01ABC" } none (some "acme")
    = "http://localhost:80/acme/storage/gcs/img/tenants/acme/product/2024-01-01-abc.jpg" := by
  constructor
  · have h := ((C1_entity_card_routing { } (some { driver := "gcs" }) none .product
      { image := .str "0.jpg", publicId := some "01ABC" } none (some "acme") "0.jpg"
      rfl (by decide)).1 "p" "01ABC" rfl rfl (by decide) (by decide)).1
    exact h.trans (by rfl)
  · have h := (C1_entity_card_routing { } (some { driver := "gcs" }) none .product
      { image := .str "2024-01-01-abc.jpg", publicId := some "01ABC" } none (some "acme")
      "2024-01-01-abc.jpg" rfl (by decide)).2.1 (Or.inl (by decide))
    exact h.trans (by rfl)

/-- C2 (amended): a non-empty CDN base short-circuits every storage driver.
For the tenant-addressed entry points the URL is
`{cdn}/{pathPrefix}/tenants/{storageFolderOrTenant}/{entityType}/{filename}`
regardless of driver (and the async variant performs no signing request); the
public-id addressed builder also uses the CDN base, but keeps its public-id
path `{cdn}/{pathPrefix}/{letter}/{publicId}/{filename}` instead of the
tenant-scoped segment. -/
theorem C2_cdn_override (env : Env) (cached : Option StorageConfig)
    (curT : Option String) (ty : ImageType) (t f : String)
    (oS : Option StorageConfig)
    (hcdn : env.CDN_URL ≠ "") (ht : t ≠ "") (hf : f ≠ "")
    (hfull : isFullUrl f = false) (hslash : strStartsWith f "/" = false) :
    getImageUrl env cached curT ty (some f)
      (.newOptions { storageConfig := oS, tenant := some t })
    = (if strEndsWith env.CDN_URL "/" then strDropRight env.CDN_URL 1 else env.CDN_URL)
      ++ "/" ++ jsOrStr ((oS.orElse fun _ => cached).bind (·.path_pfx)) "img"
      ++ "/tenants/" ++ jsOrStr ((oS.orElse fun _ => cached).bind (·.storage_folder)) t
      ++ "/" ++ ty.str ++ "/" ++ f
    ∧ (∀ windowDefined token sweepDraw now cache fetch pref,
      getImageUrlWithSignedFallback env cached curT windowDefined token sweepDraw now
        cache fetch ty (some f) pref (some t) oS
      = ((if strEndsWith env.CDN_URL "/" then strDropRight env.CDN_URL 1 else env.CDN_URL)
          ++ "/" ++ jsOrStr ((oS.orElse fun _ => cached).bind (·.path_pfx)) "img"
          ++ "/tenants/" ++ jsOrStr ((oS.orElse fun _ => cached).bind (·.storage_folder)) t
          ++ "/" ++ ty.str ++ "/" ++ f, cache, false))
    ∧ (∀ pid pfx iof, ENTITY_PREFIXES ty = some pfx → pid ≠ "" →
      getPublicIdImageUrl env cached ty (some pid) iof oS
      = (if strEndsWith env.CDN_URL "/" then strDropRight env.CDN_URL 1 else env.CDN_URL)
        ++ "/" ++ jsOrStr ((oS.orElse fun _ => cached).bind (·.path_pfx)) "img"
        ++ "/" ++ (pfx ++ "/" ++ pid ++ "/" ++ iof.toFilename)) := by
  refine ⟨?_, fun windowDefined token sweepDraw now cache fetch pref => ?_, ?_⟩
  · simp [getImageUrl, buildCdnUrl, cleanName_of_no_slash hslash,
      jsOrStrOpt, hf, hfull, ht, hcdn]
  · simp [getImageUrlWithSignedFallback, buildCdnUrl, cleanName_of_no_slash hslash,
      jsOrStrOpt, hf, hfull, ht, hcdn]
  · intro pid pfx iof hpfx hpid
    unfold getPublicIdImageUrl
    rw [hpfx]
    simp only [if_neg hpid, if_pos hcdn]

/-- C2 counterexample: with a CDN base configured, the public-id routed card
URL of a product is the public-id path on the CDN base, not the claimed
tenant-scoped `{cdn}/{pathPrefix}/tenants/{tenant}/{entityType}/{filename}`
form. -/
theorem C2_cdn_override_counterexample :
    getEntityCardImageUrl { CDN_URL := "https://cdn.x" } none none .product
      { image := .str "0.jpg", publicId := some "PID" }
      (some { driver := "gcs" }) (some "acme")
    = "https://cdn.x/img/p/PID/0.jpg"
    ∧ ("https://cdn.x/img/p/PID/0.jpg" : String)
      ≠ "https://cdn.x/img/tenants/acme/product/0.jpg" := by
  exact ⟨by rfl, by decide⟩

/-- C2 witness: concrete CDN override for a `gcs`-driver configuration. -/
theorem C2_cdn_override_witness :
    getImageUrl { CDN_URL := "https://cdn.x/" } none none .category (some "a.png")
      (.newOptions
        { storageConfig := some ({ driver := "gcs" } : StorageConfig),
          tenant := some "acme" })
    = "https://cdn.x/img/tenants/acme/category/a.png" := by
  have h := (C2_cdn_override { CDN_URL := "https://cdn.x/" } none none .category
    "acme" "a.png" (some { driver := "gcs" })
    (by decide) (by decide) (by decide) (by decide) (by decide)).1
  exact h.trans (by rfl)

/-! Association-list lemmas for the cache model. -/

/-- The element found by `mapGet` is a member carrying the looked-up key. -/
theorem mapGet_mem {c : UrlCache} {k : String} {v : CachedUrl}
    (h : mapGet c k = some v) : (k, v) ∈ c := by
  unfold mapGet at h
  obtain ⟨a, hfind, hav⟩ := Option.map_eq_some'.mp h
  have hmem := List.mem_of_find?_eq_some hfind
  have hkey0 := List.find?_some hfind
  have hkey : a.1 = k := of_decide_eq_true hkey0
  have ha : a = (k, v) := by
    cases a
    simp_all
  rwa [ha] at hmem

/-- `find?` by key is preserved by filtering when the found element survives. -/
theorem find?_filter_of_pred {c : UrlCache} {k : String} {a : String × CachedUrl}
    {pred : String × CachedUrl → Bool}
    (hfind : c.find? (fun p => p.1 = k) = some a) (hpred : pred a = true) :
    (c.filter pred).find? (fun p => p.1 = k) = some a := by
  induction c with
  | nil => simp at hfind
  | cons h t ih =>
    by_cases hh : h.1 = k
    · rw [List.find?_cons_of_pos _ (by simp [hh])] at hfind
      cases hfind
      rw [List.filter_cons_of_pos hpred]
      exact List.find?_cons_of_pos _ (by simp [hh])
    · rw [List.find?_cons_of_neg _ (by simp [hh])] at hfind
      cases hp : pred h
      · rw [List.filter_cons_of_neg (by simp [hp])]
        exact ih hfind
      · rw [List.filter_cons_of_pos hp]
        rw [List.find?_cons_of_neg _ (by simp [hh])]
        exact ih hfind

/-- `mapGet` survives a filter that keeps the found entry. -/
theorem mapGet_filter {c : UrlCache} {k : String} {v : CachedUrl}
    {pred : String × CachedUrl → Bool}
    (h : mapGet c k = some v) (hp : pred (k, v) = true) :
    mapGet (c.filter pred) k = some v := by
  unfold mapGet at h ⊢
  obtain ⟨a, hfind, hav⟩ := Option.map_eq_some'.mp h
  have hkey0 := List.find?_some hfind
  have hkey : a.1 = k := of_decide_eq_true hkey0
  have ha : a = (k, v) := by
    cases a
    simp_all
  subst ha
  rw [find?_filter_of_pred hfind hp]
  rfl

/-- With pairwise distinct keys, a key determines its value. -/
theorem nodup_keys_unique {c : UrlCache} (hnd : (c.map Prod.fst).Nodup)
    {k : String} {v v' : CachedUrl} (h1 : (k, v) ∈ c) (h2 : (k, v') ∈ c) : v = v' := by
  induction c with
  | nil => simp at h1
  | cons a t ih =>
    rw [List.map_cons, List.nodup_cons] at hnd
    rcases List.mem_cons.mp h1 with h1a | h1t
    · rcases List.mem_cons.mp h2 with h2a | h2t
      · have := h1a.trans h2a.symm
        exact congrArg Prod.snd this
      · exfalso
        refine hnd.1 ?_
        rw [show a.1 = k from by rw [← h1a]]
        exact List.mem_map_of_mem Prod.fst h2t
    · rcases List.mem_cons.mp h2 with h2a | h2t
      · exfalso
        refine hnd.1 ?_
        rw [show a.1 = k from by rw [← h2a]]
        exact List.mem_map_of_mem Prod.fst h1t
      · exact ih hnd.2 h1t h2t

/-- With pairwise distinct keys, membership determines the `mapGet` result. -/
theorem mapGet_of_mem_nodup {c : UrlCache} (hnd : (c.map Prod.fst).Nodup)
    {k : String} {v : CachedUrl} (h : (k, v) ∈ c) : mapGet c k = some v := by
  cases hget : mapGet c k with
  | none =>
    exfalso
    unfold mapGet at hget
    cases hf : c.find? (fun p => p.1 = k) with
    | some a => rw [hf] at hget; simp at hget
    | none =>
      rw [List.find?_eq_none] at hf
      exact hf (k, v) h (by simp)
  | some v' =>
    have := nodup_keys_unique hnd (mapGet_mem hget) h
    exact congrArg some this

/-- The sweep only removes entries: its result is a sublist of the input. -/
theorem cleanExpiredCache_sublist (now : Int) (m : UrlCache) :
    List.Sublist (cleanExpiredCache now m) m := by
  unfold cleanExpiredCache
  dsimp only
  split
  · exact (List.filter_sublist _).trans (List.filter_sublist _)
  · exact List.filter_sublist _

/-- Splitting a list's length by a Boolean predicate. -/
theorem length_filter_not_add {α : Type} (P : α → Bool) (l : List α) :
    (l.filter (fun a => !(P a))).length + (l.filter P).length = l.length := by
  induction l with
  | nil => rfl
  | cons a t ih => cases hP : P a <;> simp [List.filter_cons, hP, ← ih] <;> omega

/-- Replacing the value at an existing key is found by `find?`. -/
theorem find?_map_replace {c : UrlCache} {k : String} {v : CachedUrl}
    (h : c.any (fun p => p.1 = k) = true) :
    (c.map (fun p => if p.1 = k then (k, v) else p)).find? (fun p => p.1 = k)
      = some (k, v) := by
  induction c with
  | nil => simp at h
  | cons a t ih =>
    by_cases ha : a.1 = k
    · rw [List.map_cons, if_pos ha]
      exact List.find?_cons_of_pos _ (by simp)
    · rw [List.map_cons, if_neg ha]
      rw [List.find?_cons_of_neg _ (by simp [ha])]
      refine ih ?_
      have := h
      rw [List.any_cons] at this
      simpa [ha] using this

/-- `mapSet` followed by `mapGet` at the same key yields the stored value. -/
theorem mapGet_mapSet (c : UrlCache) (k : String) (v : CachedUrl) :
    mapGet (mapSet c k v) k = some v := by
  unfold mapGet mapSet
  by_cases h : c.any (fun p => p.1 = k)
  · rw [if_pos h, find?_map_replace h]
    rfl
  · rw [if_neg h]
    have hnone : c.find? (fun p => p.1 = k) = none := by
      rw [List.find?_eq_none]
      intro x hx hcon
      refine h ?_
      exact List.any_eq_true.mpr ⟨x, hx, hcon⟩
    induction c with
    | nil => simp
    | cons a t ih =>
      have han : (a.1 = k) = False := by
        rw [List.find?_cons] at hnone
        by_cases haa : a.1 = k
        · simp [haa] at hnone
        · simp [haa]
      rw [List.cons_append, List.find?_cons_of_neg _ (by simp [han])]
      refine ih ?_ ?_
      · intro hany
        refine h ?_
        rw [List.any_cons]
        simp [hany]
      · rw [List.find?_cons_of_neg _ (by simp [han])] at hnone
        exact hnone

/-- Capacity eviction of the sweep: on a list with distinct keys and more
than `MAX_CACHE_SIZE` entries, removing the keys of the earliest-expiring
surplus of the stable sort leaves exactly `MAX_CACHE_SIZE` entries, and every
removed entry expires no later than every kept one. -/
theorem evict_earliest_spec (m1 : UrlCache) (hnd1 : (m1.map Prod.fst).Nodup)
    (h500 : MAX_CACHE_SIZE < m1.length) :
    (m1.filter (fun p => !(((m1.insertionSort expLe).take
        ((m1.insertionSort expLe).length - MAX_CACHE_SIZE)).any
          (fun q => q.1 = p.1)))).length = MAX_CACHE_SIZE
    ∧ ∀ p ∈ m1.filter (fun p => !(((m1.insertionSort expLe).take
        ((m1.insertionSort expLe).length - MAX_CACHE_SIZE)).any
          (fun q => q.1 = p.1))),
      ∀ q ∈ m1, q ∉ m1.filter (fun p => !(((m1.insertionSort expLe).take
        ((m1.insertionSort expLe).length - MAX_CACHE_SIZE)).any
          (fun q => q.1 = p.1))) →
        q.2.expiresAt ≤ p.2.expiresAt := by
  set sorted := m1.insertionSort expLe with hsorted_def
  set toRemove := sorted.take (sorted.length - MAX_CACHE_SIZE) with htr_def
  have hperm : List.Perm sorted m1 := List.perm_insertionSort expLe m1
  have hsort : List.Sorted expLe sorted := List.sorted_insertionSort expLe m1
  have hlen_s : sorted.length = m1.length := hperm.length_eq
  have htr_len : toRemove.length = m1.length - MAX_CACHE_SIZE := by
    rw [htr_def, List.length_take, hlen_s]
    omega
  have hsplit : toRemove ++ sorted.drop (sorted.length - MAX_CACHE_SIZE) = sorted :=
    List.take_append_drop _ _
  have hnds : (sorted.map Prod.fst).Nodup := ((hperm.map Prod.fst).nodup_iff).mpr hnd1
  have hdisj : ∀ a ∈ toRemove, ∀ b ∈ sorted.drop (sorted.length - MAX_CACHE_SIZE),
      a.1 ≠ b.1 := by
    intro a ha b hb heq
    have hnd2 := hnds
    rw [← hsplit, List.map_append, List.nodup_append] at hnd2
    exact hnd2.2.2 (List.mem_map_of_mem Prod.fst ha)
      (heq ▸ List.mem_map_of_mem Prod.fst hb)
  have htake_all : ∀ p ∈ toRemove, (toRemove.any (fun q => q.1 = p.1)) = true := by
    intro p hp
    exact List.any_eq_true.mpr ⟨p, hp, by simp⟩
  have hdrop_none : ∀ p ∈ sorted.drop (sorted.length - MAX_CACHE_SIZE),
      (toRemove.any (fun q => q.1 = p.1)) = false := by
    intro p hp
    rw [← Bool.not_eq_true]
    intro hcon
    obtain ⟨q, hq, hq1⟩ := List.any_eq_true.mp hcon
    exact hdisj q hq p hp (of_decide_eq_true hq1)
  have hmem_split : ∀ p ∈ sorted,
      p ∈ toRemove ∨ p ∈ sorted.drop (sorted.length - MAX_CACHE_SIZE) := by
    intro p hp
    rw [← hsplit] at hp
    exact List.mem_append.mp hp
  have hfl : (m1.filter (fun p => (toRemove.any (fun q => q.1 = p.1)))).length
      = m1.length - MAX_CACHE_SIZE := by
    have hpf : (sorted.filter (fun p => (toRemove.any (fun q => q.1 = p.1)))).length
        = (m1.filter (fun p => (toRemove.any (fun q => q.1 = p.1)))).length :=
      (hperm.filter _).length_eq
    rw [← hpf]
    rw [show sorted.filter (fun p => (toRemove.any (fun q => q.1 = p.1)))
        = (toRemove ++ sorted.drop (sorted.length - MAX_CACHE_SIZE)).filter
            (fun p => (toRemove.any (fun q => q.1 = p.1))) from by rw [hsplit]]
    rw [List.filter_append]
    rw [List.filter_eq_self.mpr htake_all]
    rw [List.filter_eq_nil_iff.mpr (by intro a ha; simp [hdrop_none a ha])]
    rw [List.length_append, List.length_nil, htr_len]
    omega
  have hql : (m1.filter (fun p => !(toRemove.any (fun q => q.1 = p.1)))).length
      = MAX_CACHE_SIZE := by
    have hadd := length_filter_not_add (fun p => (toRemove.any (fun q => q.1 = p.1))) m1
    omega
  refine ⟨hql, ?_⟩
  intro p hpmem q hqmem hqnot
  have hpm1 : p ∈ m1 := List.mem_of_mem_filter hpmem
  have hpP : (toRemove.any (fun q => q.1 = p.1)) = false := by
    have := (List.mem_filter.mp hpmem).2
    simpa using this
  have hqP : (toRemove.any (fun q2 => q2.1 = q.1)) = true := by
    by_contra hq
    have hb : (toRemove.any (fun q2 => q2.1 = q.1)) = false := by
      cases h : (toRemove.any (fun q2 => q2.1 = q.1))
      · rfl
      · exact absurd h hq
    refine hqnot (List.mem_filter.mpr ⟨hqmem, ?_⟩)
    simp [hb]
  have hps : p ∈ sorted := hperm.mem_iff.mpr hpm1
  have hqs : q ∈ sorted := hperm.mem_iff.mpr hqmem
  have hpd : p ∈ sorted.drop (sorted.length - MAX_CACHE_SIZE) := by
    rcases hmem_split p hps with h | h
    · rw [htake_all p h] at hpP
      cases hpP
    · exact h
  have hqt : q ∈ toRemove := by
    rcases hmem_split q hqs with h | h
    · exact h
    · rw [hdrop_none q h] at hqP
      cases hqP
  have hpw : List.Pairwise expLe sorted := hsort
  rw [← hsplit] at hpw
  exact (List.pairwise_append.mp hpw).2.2 q hqt p hpd

/-- C4: one sweep removes every entry with `expiresAt <= now`; when at most
`MAX_CACHE_SIZE` unexpired entries remain nothing else happens; when more
remain, the result has exactly `MAX_CACHE_SIZE` entries and every evicted
unexpired entry expires no later than every retained one. -/
theorem C4_sweep_eviction (now : Int) (m : UrlCache)
    (hnd : (m.map Prod.fst).Nodup) :
    (∀ p ∈ m, p.2.expiresAt ≤ now → p ∉ cleanExpiredCache now m)
    ∧ ((m.filter (fun p => decide (¬ now ≥ p.2.expiresAt))).length ≤ MAX_CACHE_SIZE →
        cleanExpiredCache now m = m.filter (fun p => decide (¬ now ≥ p.2.expiresAt)))
    ∧ (MAX_CACHE_SIZE < (m.filter (fun p => decide (¬ now ≥ p.2.expiresAt))).length →
        (cleanExpiredCache now m).length = MAX_CACHE_SIZE
        ∧ ∀ p ∈ cleanExpiredCache now m,
            ∀ q ∈ m.filter (fun p => decide (¬ now ≥ p.2.expiresAt)),
              q ∉ cleanExpiredCache now m → q.2.expiresAt ≤ p.2.expiresAt) := by
  have hsub : ∀ x ∈ cleanExpiredCache now m,
      x ∈ m.filter (fun p => decide (¬ now ≥ p.2.expiresAt)) := by
    intro x hx
    unfold cleanExpiredCache at hx
    dsimp only at hx
    by_cases hlen : (m.filter (fun p => decide (¬ now ≥ p.2.expiresAt))).length
        > MAX_CACHE_SIZE
    · rw [if_pos hlen] at hx
      exact List.mem_of_mem_filter hx
    · rw [if_neg hlen] at hx
      exact hx
  refine ⟨?_, ?_, ?_⟩
  · intro p hp hexp hmem
    have hm1 := hsub p hmem
    have hkeep := (List.mem_filter.mp hm1).2
    rw [decide_eq_true_eq] at hkeep
    omega
  · intro hlen
    unfold cleanExpiredCache
    dsimp only
    rw [if_neg (by omega)]
  · intro h500
    have hnd1 : ((m.filter (fun p => decide (¬ now ≥ p.2.expiresAt))).map Prod.fst).Nodup :=
      hnd.sublist ((List.filter_sublist m).map Prod.fst)
    have hspec := evict_earliest_spec (m.filter (fun p => decide (¬ now ≥ p.2.expiresAt)))
      hnd1 h500
    have hcl : cleanExpiredCache now m
        = (m.filter (fun p => decide (¬ now ≥ p.2.expiresAt))).filter
            (fun p => !((((m.filter (fun p => decide (¬ now ≥ p.2.expiresAt))).insertionSort
              expLe).take
              (((m.filter (fun p => decide (¬ now ≥ p.2.expiresAt))).insertionSort
                expLe).length - MAX_CACHE_SIZE)).any (fun q => q.1 = p.1))) := by
      unfold cleanExpiredCache
      dsimp only
      rw [if_pos (by omega)]
    rw [hcl]
    exact hspec

/-- A reachable over-capacity cache state: one valid entry expiring first and
`MAX_CACHE_SIZE` later-expiring entries, all keys pairwise distinct. -/
def bigCache : UrlCache :=
  ("t:product:f", { url := "u", expiresAt := 70000 }) ::
    (List.range MAX_CACHE_SIZE).map
      (fun i => (⟨'k' :: List.replicate i 'a'⟩,
        { url := "x", expiresAt := 80000 + (i : Int) }))

/-- No entry of `bigCache` is expired at time `0`. -/
theorem bigCache_filter_eq :
    bigCache.filter (fun p => decide (¬ (0 : Int) ≥ p.2.expiresAt)) = bigCache := by
  rw [List.filter_eq_self]
  intro p hp
  rcases List.mem_cons.mp hp with h | h
  · rw [h]
    decide
  · obtain ⟨i, hi, hpe⟩ := List.mem_map.mp h
    rw [← hpe]
    rw [decide_eq_true_eq]
    dsimp only
    omega

/-- Length of `bigCache`. -/
theorem bigCache_length : bigCache.length = MAX_CACHE_SIZE + 1 := by
  simp [bigCache]

/-- `bigCache` is already sorted ascending by expiry. -/
theorem bigCache_sorted : List.Sorted expLe bigCache := by
  unfold bigCache
  refine List.sorted_cons.mpr ⟨?_, ?_⟩
  · intro b hb
    obtain ⟨i, hi, hpe⟩ := List.mem_map.mp hb
    show (70000 : Int) ≤ b.2.expiresAt
    rw [← hpe]
    dsimp only
    have : (0 : Int) ≤ (i : Int) := Int.ofNat_nonneg i
    omega
  · refine List.pairwise_map.mpr ?_
    refine (List.pairwise_lt_range MAX_CACHE_SIZE).imp ?_
    intro i j hij
    show (80000 : Int) + (i : Int) ≤ 80000 + (j : Int)
    omega

/-- The keys of `bigCache` are pairwise distinct. -/
theorem bigCache_keys_nodup : (bigCache.map Prod.fst).Nodup := by
  unfold bigCache
  rw [List.map_cons, List.nodup_cons]
  constructor
  · intro hmem
    rw [List.map_map] at hmem
    obtain ⟨i, hi, heq⟩ := List.mem_map.mp hmem
    have h2 : ('k' :: List.replicate i 'a').head? = ("t:product:f" : String).data.head? :=
      congrArg List.head? (congrArg String.data heq)
    rw [List.head?_cons,
      show ("t:product:f" : String).data.head? = some 't' from rfl] at h2
    exact absurd h2 (by decide)
  · rw [List.map_map]
    refine List.Nodup.map ?_ (List.nodup_range MAX_CACHE_SIZE)
    intro i j hij
    have hlen := congrArg (fun s : String => s.data.length) hij
    simpa using hlen

/-- C4 witness: sweeping the over-capacity `bigCache` at time `0` leaves
exactly `MAX_CACHE_SIZE` entries. -/
theorem C4_sweep_eviction_witness :
    MAX_CACHE_SIZE < (bigCache.filter (fun p => decide (¬ (0 : Int) ≥ p.2.expiresAt))).length
    ∧ (cleanExpiredCache 0 bigCache).length = MAX_CACHE_SIZE := by
  have hlen : MAX_CACHE_SIZE
      < (bigCache.filter (fun p => decide (¬ (0 : Int) ≥ p.2.expiresAt))).length := by
    rw [bigCache_filter_eq, bigCache_length]
    omega
  exact ⟨hlen, ((C4_sweep_eviction 0 bigCache bigCache_keys_nodup).2.2 hlen).1⟩

/-- C3 (amended): a successful signing call stores the URL under its key with
`expiresAt = now + 10` minutes; a later lookup inside the renewal window
returns exactly that URL with no network request, provided the probabilistic
sweep cannot capacity-evict the entry (in particular whenever the sweep is
not drawn, or the cache is within `MAX_CACHE_SIZE`); from the renewal buffer
onward the entry is treated as absent — a fetch is issued — yet the lookup
itself never deletes it. -/
theorem C3_cache_roundtrip (globalConfig : Option StorageConfig) (now : Int)
    (cache : UrlCache) (fetch : FetchResult) (tenant : String) (ty : ImageType)
    (filename : String) (url : String) (exp : Int) (sweepDraw : Bool)
    (hpub : usesPublicUrls globalConfig = false)
    (hnd : (cache.map Prod.fst).Nodup) :
    ((∀ e, mapGet cache (getCacheKey tenant ty filename) = some e →
        isCacheValid now e = false) →
      fetchSignedUrl fetch = some url →
      getSignedImageUrl globalConfig false now cache fetch tenant ty filename
        = (some url,
           mapSet cache (getCacheKey tenant ty filename)
             { url := url, expiresAt := now + DEFAULT_EXPIRATION_MINUTES * 60 * 1000 },
           true)
      ∧ mapGet (mapSet cache (getCacheKey tenant ty filename)
             { url := url, expiresAt := now + DEFAULT_EXPIRATION_MINUTES * 60 * 1000 })
          (getCacheKey tenant ty filename)
        = some { url := url, expiresAt := now + DEFAULT_EXPIRATION_MINUTES * 60 * 1000 })
    ∧ (mapGet cache (getCacheKey tenant ty filename) = some { url := url, expiresAt := exp } →
       now < exp - CACHE_BUFFER_SECONDS * 1000 →
       (sweepDraw = true → cache.length ≤ MAX_CACHE_SIZE) →
       getSignedImageUrl globalConfig sweepDraw now cache fetch tenant ty filename
         = (some url, if sweepDraw then cleanExpiredCache now cache else cache, false))
    ∧ (mapGet cache (getCacheKey tenant ty filename) = some { url := url, expiresAt := exp } →
       now ≥ exp - CACHE_BUFFER_SECONDS * 1000 →
       (getSignedImageUrl globalConfig sweepDraw now cache fetch tenant ty filename).2.2 = true
       ∧ (mapGet (getSignedImageUrl globalConfig false now cache fetch
            tenant ty filename).2.1 (getCacheKey tenant ty filename)).isSome = true) := by
  refine ⟨?_, ?_, ?_⟩
  · intro hmiss hfetch
    constructor
    · unfold getSignedImageUrl
      rw [hpub]
      simp only [Bool.false_eq_true, if_false, if_true]
      cases hget : mapGet cache (getCacheKey tenant ty filename) with
      | none => rw [hfetch]
      | some e =>
        dsimp only
        rw [hmiss e hget]
        simp only [Bool.false_eq_true, if_false]
        rw [hfetch]
    · exact mapGet_mapSet cache (getCacheKey tenant ty filename) _
  · intro hcache hvalid hsw
    have hval : isCacheValid now { url := url, expiresAt := exp } = true := by
      unfold isCacheValid
      rw [decide_eq_true_eq]
      exact hvalid
    cases sweepDraw with
    | false =>
      unfold getSignedImageUrl
      rw [hpub]
      simp only [Bool.false_eq_true, if_false, if_true]
      rw [hcache]
      dsimp only
      rw [hval]
      simp only [if_true]
    | true =>
      have hlen := hsw rfl
      have hkeep : (fun p : String × CachedUrl => decide (¬ now ≥ p.2.expiresAt))
          (getCacheKey tenant ty filename, { url := url, expiresAt := exp }) = true := by
        rw [decide_eq_true_eq]
        dsimp only
        have hbuf : (0 : Int) < CACHE_BUFFER_SECONDS * 1000 := by decide
        omega
      have hget1 : mapGet (cache.filter (fun p => decide (¬ now ≥ p.2.expiresAt)))
          (getCacheKey tenant ty filename) = some { url := url, expiresAt := exp } :=
        mapGet_filter hcache hkeep
      have hlen1 : (cache.filter (fun p => decide (¬ now ≥ p.2.expiresAt))).length
          ≤ MAX_CACHE_SIZE := le_trans (List.length_filter_le _ _) hlen
      have hgetc : mapGet (cleanExpiredCache now cache) (getCacheKey tenant ty filename)
          = some { url := url, expiresAt := exp } := by
        unfold cleanExpiredCache
        dsimp only
        rw [if_neg (by omega)]
        exact hget1
      unfold getSignedImageUrl
      rw [hpub]
      simp only [Bool.false_eq_true, if_false, if_true]
      rw [hgetc]
      dsimp only
      rw [hval]
      simp only [if_true]
  · intro hcache hstale
    have hval : isCacheValid now { url := url, expiresAt := exp } = false := by
      unfold isCacheValid
      rw [decide_eq_false_iff_not]
      dsimp only
      omega
    constructor
    · cases sweepDraw with
      | false =>
        unfold getSignedImageUrl
        rw [hpub]
        simp only [Bool.false_eq_true, if_false, if_true]
        rw [hcache]
        dsimp only
        rw [hval]
        simp only [Bool.false_eq_true, if_false]
        cases hf : fetchSignedUrl fetch <;> rfl
      | true =>
        unfold getSignedImageUrl
        rw [hpub]
        simp only [Bool.false_eq_true, if_false, if_true]
        cases hget : mapGet (cleanExpiredCache now cache) (getCacheKey tenant ty filename) with
        | none => cases hf : fetchSignedUrl fetch <;> rfl
        | some v =>
          have hmem : (getCacheKey tenant ty filename, v) ∈ cache :=
            (cleanExpiredCache_sublist now cache).subset (mapGet_mem hget)
          have hv : v = { url := url, expiresAt := exp } :=
            nodup_keys_unique hnd hmem (mapGet_mem hcache)
          dsimp only
          rw [hv, hval]
          simp only [Bool.false_eq_true, if_false]
          cases hf : fetchSignedUrl fetch <;> rfl
    · unfold getSignedImageUrl
      rw [hpub]
      simp only [Bool.false_eq_true, if_false, if_true]
      rw [hcache]
      dsimp only
      rw [hval]
      simp only [Bool.false_eq_true, if_false]
      cases hf : fetchSignedUrl fetch with
      | none =>
        dsimp only
        rw [hcache]
        rfl
      | some u =>
        dsimp only
        rw [mapGet_mapSet]
        rfl

/-- After the expiry sweep and capacity eviction of `bigCache` at time `0`,
its first (valid, earliest-expiring) entry is gone. -/
theorem bigCache_clean_get :
    mapGet (cleanExpiredCache 0 bigCache) (getCacheKey "t" .product "f") = none := by
  rw [show getCacheKey "t" .product "f" = "t:product:f" from rfl]
  unfold cleanExpiredCache
  dsimp only
  rw [bigCache_filter_eq, List.Sorted.insertionSort_eq bigCache_sorted, bigCache_length]
  rw [if_pos (by omega)]
  rw [show MAX_CACHE_SIZE + 1 - MAX_CACHE_SIZE = 1 from by omega]
  rw [show bigCache.take 1 = [("t:product:f", { url := "u", expiresAt := 70000 })] from rfl]
  unfold mapGet
  rw [List.find?_eq_none.mpr ?_]
  · rfl
  · intro p hp hcon
    have hmem := List.mem_filter.mp hp
    have hpred := hmem.2
    rw [List.any_cons, List.any_nil, Bool.or_false, Bool.not_eq_true'] at hpred
    have h1 : p.1 = "t:product:f" := of_decide_eq_true hcon
    rw [h1] at hpred
    simp at hpred

/-- C3 counterexample: `bigCache` holds a valid entry for the key (its expiry
window is still open at time `0`), yet the lookup, when the probabilistic
sweep draw fires on the over-capacity cache, capacity-evicts that entry and
issues a network request instead of returning the cached URL. -/
theorem C3_cache_roundtrip_counterexample :
    isCacheValid 0 { url := "u", expiresAt := 70000 } = true
    ∧ mapGet bigCache (getCacheKey "t" .product "f")
        = some { url := "u", expiresAt := 70000 }
    ∧ (getSignedImageUrl none true 0 bigCache .fetchError "t" .product "f").1 = none
    ∧ (getSignedImageUrl none true 0 bigCache .fetchError "t" .product "f").2.2 = true := by
  have hres : getSignedImageUrl none true 0 bigCache .fetchError "t" .product "f"
      = (none, cleanExpiredCache 0 bigCache, true) := by
    unfold getSignedImageUrl
    rw [show usesPublicUrls none = false from rfl]
    simp only [Bool.false_eq_true, if_false, if_true]
    rw [bigCache_clean_get]
    rfl
  refine ⟨by decide, ?_, ?_, ?_⟩
  · rw [show getCacheKey "t" .product "f" = "t:product:f" from rfl]
    rfl
  · rw [hres]
  · rw [hres]

/-- C3 witness: a fresh store followed by an in-window lookup returns the
stored URL without a network request. -/
theorem C3_cache_roundtrip_witness :
    getSignedImageUrl none false 0
      [("acme:product:a.png", { url := "https://signed", expiresAt := 700000 })]
      .fetchError "acme" .product "a.png"
    = (some "https://signed",
       [("acme:product:a.png", { url := "https://signed", expiresAt := 700000 })],
       false) := by
  have h := (C3_cache_roundtrip none 0
    [("acme:product:a.png", { url := "https://signed", expiresAt := 700000 })]
    .fetchError "acme" .product "a.png" "https://signed" 700000 false
    rfl (by decide)).2.1 (by rfl) (by decide) (by intro h; cases h)
  exact h

/-- When no valid cache entry exists for the key and the signing request
fails, `getSignedImageUrl` yields `null`. -/
theorem getSignedImageUrl_fst_none (globalConfig : Option StorageConfig)
    (sweepDraw : Bool) (now : Int) (cache : UrlCache) (fetch : FetchResult)
    (tenant : String) (ty : ImageType) (filename : String)
    (hnd : (cache.map Prod.fst).Nodup)
    (hmiss : ∀ e, mapGet cache (getCacheKey tenant ty filename) = some e →
      isCacheValid now e = false)
    (hfail : fetchSignedUrl fetch = none) :
    (getSignedImageUrl globalConfig sweepDraw now cache fetch tenant ty filename).1
      = none := by
  unfold getSignedImageUrl
  by_cases hp : usesPublicUrls globalConfig = true
  · rw [if_pos hp]
  · rw [if_neg hp]
    cases sweepDraw with
    | false =>
      simp only [Bool.false_eq_true, if_false]
      cases hget : mapGet cache (getCacheKey tenant ty filename) with
      | none => rw [hfail]
      | some e =>
        dsimp only
        rw [hmiss e hget]
        simp only [Bool.false_eq_true, if_false]
        rw [hfail]
    | true =>
      simp only [if_true]
      cases hget : mapGet (cleanExpiredCache now cache) (getCacheKey tenant ty filename) with
      | none => rw [hfail]
      | some v =>
        have hmem : (getCacheKey tenant ty filename, v) ∈ cache :=
          (cleanExpiredCache_sublist now cache).subset (mapGet_mem hget)
        have hv := hmiss v (mapGet_of_mem_nodup hnd hmem)
        dsimp only
        rw [hv]
        simp only [Bool.false_eq_true, if_false]
        rw [hfail]

/-- C5: when the signed-URL branch is reached (driver `gcs`, signed URLs
enabled, preference on, session token present) and every signing request
fails, `resolveWithFallback` still returns the non-empty tenant-scoped proxy
URL; no error reaches the caller (the model is a total function). -/
theorem C5_signed_fallback_proxy (env : Env) (cached : Option StorageConfig)
    (curT : Option String) (ty : ImageType) (cfg : StorageConfig)
    (t f tok : String) (sweepDraw : Bool) (now : Int) (cache : UrlCache)
    (fetch : FetchResult) (pref : Option Bool) (oT : Option String)
    (oS : Option StorageConfig)
    (hf : f ≠ "") (hfull : isFullUrl f = false) (hslash : strStartsWith f "/" = false)
    (hcdn : env.CDN_URL = "")
    (hten : jsOrStrOpt oT curT = some t) (htne : t ≠ "")
    (hst : oS.orElse (fun _ => cached) = some cfg)
    (hdrv : cfg.driver = "gcs") (husu : cfg.use_signed_urls = true)
    (hpref : pref.getD true = true) (htok : tok ≠ "")
    (hnd : (cache.map Prod.fst).Nodup)
    (hmiss : ∀ e, mapGet cache (getCacheKey t ty f) = some e →
      isCacheValid now e = false)
    (hfail : fetchSignedUrl fetch = none) :
    (getImageUrlWithSignedFallback env cached curT true (some tok) sweepDraw now cache
        fetch ty (some f) pref oT oS).1
      = env.API_BASE_URL ++ "/" ++ t ++ "/storage/gcs/img/tenants/"
        ++ jsOrStr cfg.storage_folder t ++ "/" ++ ty.str ++ "/" ++ f
    ∧ (getImageUrlWithSignedFallback env cached curT true (some tok) sweepDraw now cache
        fetch ty (some f) pref oT oS).1 ≠ "" := by
  have hurl : (getImageUrlWithSignedFallback env cached curT true (some tok) sweepDraw now
      cache fetch ty (some f) pref oT oS).1
      = env.API_BASE_URL ++ "/" ++ t ++ "/storage/gcs/img/tenants/"
        ++ jsOrStr cfg.storage_folder t ++ "/" ++ ty.str ++ "/" ++ f := by
    have hsig := getSignedImageUrl_fst_none cached sweepDraw now cache fetch t ty f
      hnd hmiss hfail
    unfold getImageUrlWithSignedFallback
    dsimp only
    rw [if_neg hf, hfull]
    simp only [Bool.false_eq_true, if_false]
    rw [hten]
    dsimp only
    rw [if_neg htne, hst]
    dsimp only
    rw [hcdn]
    simp only [ne_eq, not_true_eq_false, Bool.false_eq_true, if_false]
    rw [hdrv]
    simp only [String.reduceEq, Bool.false_eq_true, if_false]
    rw [if_pos ⟨trivial, husu, hpref, trivial⟩]
    rw [show strTruthy (some tok) = true from by simp [strTruthy, htok]]
    simp only [if_true]
    rcases hres : getSignedImageUrl cached sweepDraw now cache fetch t ty f with ⟨r1, r2, r3⟩
    rw [hres] at hsig
    dsimp only at hsig
    subst hsig
    dsimp only
    unfold buildProxyUrl
    simp only [cleanName_of_no_slash hslash, Option.bind]
  refine ⟨hurl, ?_⟩
  rw [hurl]
  apply ne_empty_of_length_pos
  simp only [String.length_append]
  have h1 : ("/" : String).length = 1 := rfl
  omega

/-- C5 witness: concrete `gcs` signed-URL branch with a failing endpoint
resolves to the concrete proxy URL. -/
theorem C5_signed_fallback_proxy_witness :
    (getImageUrlWithSignedFallback { } (some { driver := "gcs", use_signed_urls := true })
        none true (some "tok") false 0 [] .fetchError .product (some "a.png")
        none (some "acme") none).1
    = "http://localhost:80/acme/storage/gcs/img/tenants/acme/product/a.png" := by
  have h := (C5_signed_fallback_proxy { } (some { driver := "gcs", use_signed_urls := true })
    none .product { driver := "gcs", use_signed_urls := true } "acme" "a.png" "tok"
    false 0 [] .fetchError none (some "acme") none
    (by decide) (by decide) (by decide) rfl rfl (by decide) rfl rfl rfl rfl (by decide)
    (by decide) (by intro e he; simp [mapGet] at he) rfl).1
  exact h.trans (by rfl)

end Mercancy
